import Mathlib

/-!
Verification of the Isracard/Amex base scraper
(`src/scrapers/base-isracard-amex.ts`).

The file shallowly embeds the scraper's pure core: the transaction record
normalizer (`convertTransactions`), installment detection
(`getInstallmentsInfo`), the monthly account resolver (`fetchAccounts`),
the monthly transaction fetcher (`fetchTransactions`), the cross-month
aggregator (`fetchAllTransactions`), the login handshake (`login`) and the
effective-start computation of `fetchData`.

Conventions of the embedding:
* JS `null`/`undefined` values and absent JSON fields become `Option`.
* A thrown JS exception becomes `Except.error` with the thrown message.
* Amounts are embedded as `Int` (no claim in scope depends on fractional
  or floating-point behaviour, only on negation and signs).
* The external calendar collaborator (`moment`) is modelled by parsing the
  fixed `DD/MM/YYYY` wire format into a `(year, month, day)` triple; an
  unparseable date becomes `none` (the invalid-moment sentinel).
* The transport collaborator is modelled by passing each endpoint's JSON
  response (an `Option` of the response shape) as an explicit argument.
-/

/-! ## Generic string and number helpers (JS primitives used by the source) -/

/-- Model of `needle.isPrefix-like` test: does `l` start with `sub`? -/
def seqStartsWith : List Char → List Char → Bool
  | _, [] => true
  | [], _ :: _ => false
  | c :: cs, d :: ds => c == d && seqStartsWith cs ds

/-- Does `sub` occur contiguously inside `l`? -/
def seqContains : List Char → List Char → Bool
  | [], sub => sub.isEmpty
  | c :: cs, sub => seqStartsWith (c :: cs) sub || seqContains cs sub

/-- Model of JS `s.includes(sub)`. -/
def strIncludes (s sub : String) : Bool :=
  seqContains s.data sub.data

/-- Decimal value of a list of digit characters. -/
def digitsToNat (ds : List Char) : Nat :=
  ds.foldl (fun acc c => acc * 10 + (c.toNat - 48)) 0

/-- Model of JS `parseInt(s, 10)` on the strings this scraper feeds it
(unsigned digit prefixes): `none` models the `NaN` result. -/
def parseIntJs (s : String) : Option Nat :=
  let ds := s.data.takeWhile Char.isDigit
  if ds.isEmpty then none else some (digitsToNat ds)

/-- Accumulator-passing scanner behind `digitRuns`. -/
def digitRunsAux : List Char → List Char → List String
  | [], cur => if cur.isEmpty then [] else [String.mk cur.reverse]
  | c :: rest, cur =>
    if c.isDigit then digitRunsAux rest (c :: cur)
    else if cur.isEmpty then digitRunsAux rest []
    else String.mk cur.reverse :: digitRunsAux rest []

/-- Model of the JS regex match `s.match(/\d+/g)`: the maximal runs of
ASCII digits in `s`, in order of appearance (`[]` models the `null`
result on a digit-free string). -/
def digitRuns (s : String) : List String :=
  digitRunsAux s.data []

/-- Calendar instant as a `(year, month, day)` triple. -/
abbrev Dmy := Nat × Nat × Nat

/-- Valid-or-invalid instant: `none` models an invalid moment. -/
abbrev Instant := Option Dmy

/-- Chronological comparison of two `(year, month, day)` triples. -/
def dmyLe (a b : Dmy) : Bool :=
  Nat.blt a.1 b.1 ||
    (a.1 == b.1 && (Nat.blt a.2.1 b.2.1 || (a.2.1 == b.2.1 && Nat.ble a.2.2 b.2.2)))

/-- Splitting of a character list at every slash. -/
def splitOnSlashAux : List Char → List Char → List (List Char)
  | [], cur => [cur.reverse]
  | c :: rest, cur =>
    if c == '/' then cur.reverse :: splitOnSlashAux rest []
    else splitOnSlashAux rest (c :: cur)

/-- Decimal value of a nonempty all-digit character list, `none`
otherwise. -/
def charsToNat? (l : List Char) : Option Nat :=
  if !l.isEmpty && l.all Char.isDigit then some (digitsToNat l) else none

/-- Modelled from the spec: the external calendar collaborator (`moment`
with the fixed `DD/MM/YYYY` format, §4.2/§6) parses a day/month/year
string; a parse failure yields the invalid sentinel (`none`), never an
exception. -/
def parseDmy (s : String) : Option Dmy :=
  match splitOnSlashAux s.data [] with
  | [d, m, y] =>
    match charsToNat? d, charsToNat? m, charsToNat? y with
    | some dn, some mn, some yn => some (yn, mn, dn)
    | _, _, _ => none
  | _ => none

/-- Date field of a raw record run through the calendar collaborator:
an absent string parses to the invalid sentinel. -/
def parseDmyOpt (s : Option String) : Instant :=
  match s with
  | some str => parseDmy str
  | none => none

/-! ## Data model (`src/scrapers/base-isracard-amex.ts` interfaces) -/

/-- Wire shape of one raw transaction record (`ScrapedTransaction`).
The TS interface declares `dealSumOutbound : boolean`, but the code both
branches on its truthiness (line 138) and negates it as the outbound
amount (line 147), so it is embedded as a number with JS truthiness
(truthy iff nonzero). -/
structure ScrapedTransaction where
  dealSumType : String
  voucherNumberRatzOutbound : String
  voucherNumberRatz : String
  moreInfo : Option String
  dealSumOutbound : Int
  currencyId : String
  dealSum : Int
  fullPurchaseDate : Option String
  fullPurchaseDateOutbound : Option String
  fullSupplierNameHeb : String
  fullSupplierNameOutbound : String
  paymentSum : Int
  paymentSumOutbound : Int
deriving DecidableEq

/-- Canonical transaction kinds (`TransactionTypes` of `types.ts`). -/
inductive TransactionTypes where
  | Normal
  | Installments
deriving DecidableEq

/-- Canonical transaction statuses (`TransactionStatuses` of `types.ts`). -/
inductive TransactionStatuses where
  | Completed
  | Pending
deriving DecidableEq

/-- Installment descriptor `{number, total}`. -/
structure InstallmentsInfo where
  number : Nat
  total : Nat
deriving DecidableEq

/-- Canonical transaction produced by the normalizer
(`CreditCardTransaction`). `identifier` is `none` when JS `parseInt`
would produce `NaN`; `date` and `processedDate` are instants produced by
the calendar collaborator model. -/
structure Transaction where
  type : TransactionTypes
  identifier : Option Nat
  date : Instant
  processedDate : Instant
  originalAmount : Int
  originalCurrency : String
  chargedAmount : Int
  description : String
  memo : String
  installments : Option InstallmentsInfo
  status : TransactionStatuses
deriving DecidableEq

/-! ## Currency and installment helpers -/

/-- Modelled from the spec (§4.1): the shekel currency constants live in
`src/constants.ts`, which is not part of the sources; the recognized
keyword and the alternate code map to the canonical shekel code. -/
def SHEKEL_CURRENCY_KEYWORD : String := "ש\"ח"

/-- Modelled from the spec (§4.1): canonical shekel currency code. -/
def SHEKEL_CURRENCY : String := "ILS"

/-- Modelled from the spec (§4.1): alternate shekel currency code. -/
def ALT_SHEKEL_CURRENCY : String := "NIS"

/-- Installment marker token searched for in the memo (source line 24). -/
def INSTALLMENTS_KEYWORD : String := "תשלום"

/-- Embedding of `convertCurrency` (source lines 106-111). -/
def convertCurrency (currencyStr : String) : String :=
  if currencyStr == SHEKEL_CURRENCY_KEYWORD || currencyStr == ALT_SHEKEL_CURRENCY then
    SHEKEL_CURRENCY
  else currencyStr

/-- Embedding of `getInstallmentsInfo` (source lines 113-126): `none` if
the memo is absent, lacks the marker, or contains fewer than two digit
runs; otherwise the decimal values of the first two digit runs. -/
def getInstallmentsInfo (txn : ScrapedTransaction) : Option InstallmentsInfo :=
  match txn.moreInfo with
  | none => none
  | some info =>
    if strIncludes info INSTALLMENTS_KEYWORD then
      match digitRuns info with
      | a :: b :: _ => some { number := (parseIntJs a).getD 0, total := (parseIntJs b).getD 0 }
      | _ => none
    else none

/-- Embedding of `getTransactionType` (source lines 128-130). -/
def getTransactionType (txn : ScrapedTransaction) : TransactionTypes :=
  match getInstallmentsInfo txn with
  | some _ => TransactionTypes.Installments
  | none => TransactionTypes.Normal

/-! ## Transaction record normalizer (`convertTransactions`) -/

/-- The filter predicate of `convertTransactions` (source lines 133-135):
a record is kept when its deal-sum type is not the placeholder code `"1"`
and neither voucher-number field is the all-zeros sentinel. -/
def keepTxn (txn : ScrapedTransaction) : Bool :=
  txn.dealSumType != "1" &&
    txn.voucherNumberRatz != "000000000" &&
    txn.voucherNumberRatzOutbound != "000000000"

/-- The body mapped over the kept records (source lines 137-157). -/
def convertOne (processedDate : Instant) (txn : ScrapedTransaction) : Transaction :=
  let isOutbound := txn.dealSumOutbound != 0
  { type := getTransactionType txn
    identifier :=
      parseIntJs (if isOutbound then txn.voucherNumberRatzOutbound else txn.voucherNumberRatz)
    date := parseDmyOpt (if isOutbound then txn.fullPurchaseDateOutbound else txn.fullPurchaseDate)
    processedDate := processedDate
    originalAmount := if isOutbound then -txn.dealSumOutbound else -txn.dealSum
    originalCurrency := convertCurrency txn.currencyId
    chargedAmount := if isOutbound then -txn.paymentSumOutbound else -txn.paymentSum
    description := if isOutbound then txn.fullSupplierNameOutbound else txn.fullSupplierNameHeb
    memo := txn.moreInfo.getD ""
    installments := getInstallmentsInfo txn
    status := TransactionStatuses.Completed }

/-- Embedding of `convertTransactions` (source lines 132-158). -/
def convertTransactions (txns : List ScrapedTransaction) (processedDate : Instant) :
    List Transaction :=
  (txns.filter keepTxn).map (convertOne processedDate)

/-! ## Installment reconciler and time-window filter

Both functions live in `src/helpers/transactions.ts`, which is not among
the sources; they are modelled from the spec (§4.5, §4.6). -/

/-- Modelled from the spec (§4.6): the per-element keep predicate of the
time-window filter. A transaction is kept when its instant is not before
the start instant (an invalid instant is "not excludable by date" and
passes through), or, when `combineInstallments` is true, when it is an
installment leg whose plan may still reach into the window. -/
def keepNewTxn (startMoment : Dmy) (combineInstallments : Bool) (t : Transaction) : Bool :=
  (match t.date with
   | none => true
   | some d => dmyLe startMoment d) ||
    (combineInstallments && t.installments.isSome)

/-- Modelled from the spec (§4.6): `filterOldTransactions` from
`src/helpers/transactions.ts` (not among the sources) drops every
transaction rejected by `keepNewTxn`. -/
def filterOldTransactions (txns : List Transaction) (startMoment : Dmy)
    (combineInstallments : Bool) : List Transaction :=
  txns.filter (keepNewTxn startMoment combineInstallments)

/-- Installment index of a transaction, `0` when it has no descriptor. -/
def instNumber (t : Transaction) : Nat :=
  match t.installments with
  | some i => i.number
  | none => 0

/-- Grouping key of an installment purchase: identifier plus merchant
description (spec §4.5: legs of the same purchase share these). -/
def instKey (t : Transaction) : Option Nat × String :=
  (t.identifier, t.description)

/-- Earliest-dated entry of an indexed group (invalid dates sort last). -/
def earliestLeg : List (Nat × Transaction) → Option (Nat × Transaction)
  | [] => none
  | p :: rest =>
    match earliestLeg rest with
    | none => some p
    | some q =>
      match p.2.date, q.2.date with
      | some a, some b => if dmyLe a b then some p else some q
      | some _, none => some p
      | none, _ => some q

/-- Sum of a projected amount over an indexed group of legs. -/
def sumLegs (group : List (Nat × Transaction)) (f : Transaction → Int) : Int :=
  group.foldl (fun s p => s + f p.2) 0

/-- Modelled from the spec (§4.5): `fixInstallments` from
`src/helpers/transactions.ts` (not among the sources). Installment legs
are grouped by identifier plus description; each group collapses to the
leg with index 1 when present, otherwise its earliest-dated leg, with
amounts replaced by the sums over the visible legs and the descriptor
dropped; the other legs are removed. -/
def fixInstallments (txns : List Transaction) : List Transaction :=
  let e := txns.enum
  e.filterMap (fun p =>
    if p.2.installments.isNone then some p.2
    else
      let group := e.filter (fun q => q.2.installments.isSome && instKey q.2 == instKey p.2)
      let rep :=
        match group.find? (fun q => instNumber q.2 == 1) with
        | some q => q.1
        | none =>
          match earliestLeg group with
          | some q => q.1
          | none => p.1
      if p.1 == rep then
        some { p.2 with
          type := TransactionTypes.Normal
          originalAmount := sumLegs group (fun t => t.originalAmount)
          chargedAmount := sumLegs group (fun t => t.chargedAmount)
          installments := none }
      else none)

/-! ## Monthly account resolver and monthly transaction fetcher -/

/-- Response header shape shared by the institution's endpoints. -/
structure HeaderShape where
  Status : String
deriving DecidableEq

/-- One entry of `DashboardMonthBean.cardsCharges`. -/
structure CardCharge where
  cardIndex : String
  cardNumber : String
  billingDate : String
deriving DecidableEq

/-- The `DashboardMonthBean` payload (`cardsCharges` may be absent). -/
structure DashboardBean where
  cardsCharges : Option (List CardCharge)
deriving DecidableEq

/-- Wire shape of the dashboard-month response
(`FetchAccountsWithinPageResponse`, source lines 49-60). -/
structure AccountsResponse where
  Header : Option HeaderShape
  DashboardMonthBean : Option DashboardBean
deriving DecidableEq

/-- Resolved account info for one month (source lines 80-86). -/
structure AccountMonthInfo where
  index : Option Nat
  accountNumber : String
  processedDate : Instant
deriving DecidableEq

/-- Embedding of `fetchAccounts` (source lines 74-90). The transport
response is the argument; `none` models both a transport failure and the
function's own `return null`. -/
def fetchAccounts (dataResult : Option AccountsResponse) : Option (List AccountMonthInfo) :=
  match dataResult with
  | none => none
  | some r =>
    match r.Header, r.DashboardMonthBean with
    | some h, some bean =>
      if h.Status == "1" then
        match bean.cardsCharges with
        | some charges =>
          some (charges.map (fun c =>
            { index := parseIntJs c.cardIndex
              accountNumber := c.cardNumber
              processedDate := parseDmy c.billingDate }))
        | none => none
      else none
    | _, _ => none

/-- One group under `CurrentCardTransactions`: a domestic and an abroad
sub-list, each possibly absent. -/
structure TxnGroup where
  txnIsrael : Option (List ScrapedTransaction)
  txnAbroad : Option (List ScrapedTransaction)
deriving DecidableEq

/-- The per-card bean reached through `Index${account.index}`. -/
structure CardTxnsBean where
  CurrentCardTransactions : Option (List TxnGroup)
deriving DecidableEq

/-- Wire shape of the transactions-list response; the
`CardsTransactionsListBean` object keyed by `Index${i}` is embedded as an
association list from the numeric index. -/
structure TxnListResponse where
  Header : Option HeaderShape
  CardsTransactionsListBean : Option (List (Nat × CardTxnsBean))
deriving DecidableEq

/-- The header-and-bean check of `fetchTransactions` (source line 164):
the bean when the response is present, its header status is `"1"` and the
bean itself is present; `none` otherwise. -/
def txnListOk (r : Option TxnListResponse) : Option (List (Nat × CardTxnsBean)) :=
  match r with
  | none => none
  | some v =>
    match v.Header with
    | some h => if h.Status == "1" then v.CardsTransactionsListBean else none
    | none => none

/-- Lodash path lookup `CardsTransactionsListBean.Index${i}` (an absent
parsed index, JS `NaN`, reaches no property). -/
def lookupIndex (bean : List (Nat × CardTxnsBean)) (i : Option Nat) : Option CardTxnsBean :=
  match i with
  | some n => (bean.find? (fun p => p.1 == n)).map (fun p => p.2)
  | none => none

/-- Per-account value stored into `accountTxns` (source lines 186-190). -/
structure ScraperAccount where
  accountNumber : String
  index : Option Nat
  txns : List Transaction
deriving DecidableEq

/-- JS object write `obj[k] = v`: replace the value in place when the key
exists, otherwise append the new key. -/
def objInsert (l : List (String × ScraperAccount)) (k : String) (v : ScraperAccount) :
    List (String × ScraperAccount) :=
  if l.any (fun p => p.1 == k) then
    l.map (fun p => if p.1 == k then (p.1, v) else p)
  else l ++ [(k, v)]

/-- Loop body of `accounts.forEach` in `fetchTransactions` (source lines
166-192): convert the account's groups, reconcile installments unless
combining, filter by the time window, and store under the account number;
an account with no groups contributes nothing. -/
def processAccount (bean : List (Nat × CardTxnsBean)) (combineInstallments : Bool)
    (startMoment : Dmy) (acc : List (String × ScraperAccount))
    (account : AccountMonthInfo) : List (String × ScraperAccount) :=
  match lookupIndex bean account.index with
  | some cardBean =>
    match cardBean.CurrentCardTransactions with
    | some txnGroups =>
      let allTxns := txnGroups.foldl (fun ts g =>
        let ts1 :=
          match g.txnIsrael with
          | some israel => ts ++ convertTransactions israel account.processedDate
          | none => ts
        match g.txnAbroad with
        | some abroad => ts1 ++ convertTransactions abroad account.processedDate
        | none => ts1) []
      let allTxns1 := if !combineInstallments then fixInstallments allTxns else allTxns
      let allTxns2 := filterOldTransactions allTxns1 startMoment combineInstallments
      objInsert acc account.accountNumber
        { accountNumber := account.accountNumber, index := account.index, txns := allTxns2 }
    | none => acc
  | none => acc

/-- Embedding of `fetchTransactions` (source lines 160-197). Takes the
month's two transport responses. When the transactions-list check passes
but the account resolution produced `null`, the JS `accounts.forEach`
dereferences `null`; that thrown `TypeError` is the `Except.error` case. -/
def fetchTransactions (dashboardResult : Option AccountsResponse)
    (dataResult : Option TxnListResponse) (combineInstallments : Bool)
    (startMoment : Dmy) : Except String (List (String × ScraperAccount)) :=
  let accounts := fetchAccounts dashboardResult
  match txnListOk dataResult with
  | some bean =>
    match accounts with
    | none => Except.error "TypeError: accounts is null"
    | some accs =>
      Except.ok (accs.foldl (processAccount bean combineInstallments startMoment) [])
  | none => Except.ok []

/-! ## Cross-month aggregator (`fetchAllTransactions`) -/

/-- Transport responses of one calendar month, listed in the
chronological order produced by the month-sequence collaborator. -/
structure MonthInput where
  dashboard : Option AccountsResponse
  txnList : Option TxnListResponse
deriving DecidableEq

/-- Final result shape of the aggregator (source lines 225-228). -/
structure FetchResult where
  success : Bool
  accounts : List (String × List Transaction)
deriving DecidableEq

/-- Model of `Promise.all` over per-month fetches: the results in input
order when every month succeeds, otherwise the first rejection. -/
def promiseAll (f : α → Except ε β) : List α → Except ε (List β)
  | [] => Except.ok []
  | a :: rest =>
    match f a with
    | Except.error e => Except.error e
    | Except.ok b =>
      match promiseAll f rest with
      | Except.error e => Except.error e
      | Except.ok bs => Except.ok (b :: bs)

/-- Inner step of the merge loop (source lines 207-215): create the
account's sequence when absent, then append the month's transactions. -/
def stepMerge (comb : List (String × List Transaction)) (entry : String × ScraperAccount) :
    List (String × List Transaction) :=
  if comb.any (fun p => p.1 == entry.1) then
    comb.map (fun p => if p.1 == entry.1 then (p.1, p.2 ++ entry.2.txns) else p)
  else comb ++ [(entry.1, entry.2.txns)]

/-- Merge of one month's result into `combinedTxns` (source lines
206-216). -/
def mergeMonth (comb : List (String × List Transaction))
    (result : List (String × ScraperAccount)) : List (String × List Transaction) :=
  result.foldl stepMerge comb

/-- Embedding of `fetchAllTransactions` (source lines 199-229): fetch all
months concurrently, merge per account in precomputed month order, and
wrap with `success: true`. A month whose fetch throws rejects the whole
`Promise.all`. -/
def fetchAllTransactions (months : List MonthInput) (combineInstallments : Bool)
    (startMoment : Dmy) : Except String FetchResult :=
  match promiseAll
      (fun m => fetchTransactions m.dashboard m.txnList combineInstallments startMoment)
      months with
  | Except.error e => Except.error e
  | Except.ok results =>
    Except.ok { success := true, accounts := results.foldl mergeMonth [] }

/-- The claim's reading of the aggregator (spec §4.6): identical to
`fetchAllTransactions`, except that the time-window filter is invoked
once more on each account's final merged ledger. Stated from the spec's
words to be compared with the source's aggregator. -/
def fetchAllTransactionsTwoGranularities (months : List MonthInput)
    (combineInstallments : Bool) (startMoment : Dmy) : Except String FetchResult :=
  match promiseAll
      (fun m => fetchTransactions m.dashboard m.txnList combineInstallments startMoment)
      months with
  | Except.error e => Except.error e
  | Except.ok results =>
    Except.ok
      { success := true
        accounts := (results.foldl mergeMonth []).map (fun p =>
          (p.1, filterOldTransactions p.2 startMoment combineInstallments)) }

/-! ## Authentication (`IsracardAmexBaseScraper.login`) -/

/-- Typed scraping error kinds (`ErrorTypes` of `types.ts`, not among the
sources); `UnknownError` is modelled from the spec (§4.8/§7) as the kind
reported when a response is absent or structurally malformed. -/
inductive ErrorTypes where
  | ChangePassword
  | InvalidPassword
  | UnknownError
deriving DecidableEq

/-- Validation payload (`ValidateIdDataBean`). -/
structure ValidateBean where
  returnCode : String
  userName : String
deriving DecidableEq

/-- Wire shape of the identity-validation response. -/
structure ValidateResponse where
  Header : Option HeaderShape
  ValidateIdDataBean : Option ValidateBean
deriving DecidableEq

/-- Wire shape of the logon response. -/
structure LogonResponse where
  status : String
deriving DecidableEq

/-- Structured outcome returned to the caller (`LegacyScrapingResult`). -/
structure LegacyScrapingResult where
  success : Bool
  errorType : Option ErrorTypes
deriving DecidableEq

/-- The malformed-response guard of `login` (source line 262): the
validation bean when the response is present with header status `"1"` and
a payload; `none` triggers the `throw`. -/
def validValidate (r : Option ValidateResponse) : Option ValidateBean :=
  match r with
  | none => none
  | some v =>
    match v.Header with
    | some h => if h.Status == "1" then v.ValidateIdDataBean else none
    | none => none

/-- Decidable equality for `Except` values, used to evaluate login runs
on concrete inputs. -/
instance exceptDecEq [DecidableEq ε] [DecidableEq α] : DecidableEq (Except ε α) := fun a b =>
  match a, b with
  | Except.error e, Except.error f =>
    if h : e = f then isTrue (by rw [h]) else isFalse (by intro hc; cases hc; exact h rfl)
  | Except.ok x, Except.ok y =>
    if h : x = y then isTrue (by rw [h]) else isFalse (by intro hc; cases hc; exact h rfl)
  | Except.error _, Except.ok _ => isFalse (by intro hc; cases hc)
  | Except.ok _, Except.error _ => isFalse (by intro hc; cases hc)

/-- One run of `login`: the returned result (or the thrown exception) and
whether the logon POST was issued. -/
structure LoginRun where
  result : Except String LegacyScrapingResult
  logonIssued : Bool
deriving DecidableEq

/-- Embedding of `IsracardAmexBaseScraper.login` (source lines 247-313).
The two transport responses are arguments; `logonResult` is the response
the logon POST would receive if issued. Progress emission is an external
side effect outside the return contract and is not modelled. -/
def login (validateResult : Option ValidateResponse) (logonResult : Option LogonResponse) :
    LoginRun :=
  match validValidate validateResult with
  | none => { result := Except.error "unknown error during login", logonIssued := false }
  | some bean =>
    if bean.returnCode == "1" then
      match logonResult with
      | some lr =>
        if lr.status == "1" then
          { result := Except.ok { success := true, errorType := none }, logonIssued := true }
        else if lr.status == "3" then
          { result := Except.ok { success := false, errorType := some ErrorTypes.ChangePassword }
            logonIssued := true }
        else
          { result := Except.ok { success := false, errorType := some ErrorTypes.InvalidPassword }
            logonIssued := true }
      | none =>
        { result := Except.ok { success := false, errorType := some ErrorTypes.InvalidPassword }
          logonIssued := true }
    else if bean.returnCode == "4" then
      { result := Except.ok { success := false, errorType := some ErrorTypes.ChangePassword }
        logonIssued := false }
    else
      { result := Except.ok { success := false, errorType := some ErrorTypes.InvalidPassword }
        logonIssued := false }

/-- Modelled from the spec (§7): the surrounding base scraper (not among
the sources) wraps the login call, converts any thrown exception into the
structured `UnknownError` outcome, and hands the caller only structured
outcomes. -/
def loginUserVisible (validateResult : Option ValidateResponse)
    (logonResult : Option LogonResponse) : LegacyScrapingResult :=
  match (login validateResult logonResult).result with
  | Except.ok r => r
  | Except.error _ => { success := false, errorType := some ErrorTypes.UnknownError }

/-! ## Effective start instant (`fetchData`) -/

/-- Modelled from the spec (§4.7): the calendar collaborator's
one-year-back step, on an integer timeline measured in months. -/
def subtractOneYear (now : Int) : Int := now - 12

/-- Embedding of the start computation of `fetchData` (source lines
316-318): default to one year before now when the caller supplied no
start date, then take the later of the default and the caller's start. -/
def fetchDataStartMoment (now : Int) (startDate : Option Int) : Int :=
  let defaultStartMoment := subtractOneYear now
  let start := startDate.getD defaultStartMoment
  max defaultStartMoment start

/-! ## Concrete inputs used by counterexamples and witnesses -/

/-- Record whose domestic voucher field alone is the all-zeros sentinel. -/
def c1txn : ScrapedTransaction :=
  { dealSumType := "0"
    voucherNumberRatzOutbound := "123456789"
    voucherNumberRatz := "000000000"
    moreInfo := none
    dealSumOutbound := 0
    currencyId := "ILS"
    dealSum := 100
    fullPurchaseDate := some "01/06/2020"
    fullPurchaseDateOutbound := none
    fullSupplierNameHeb := "shop"
    fullSupplierNameOutbound := ""
    paymentSum := 100
    paymentSumOutbound := 0 }

/-- Ordinary keepable domestic record with agreeing raw sums. -/
def c5wtxn : ScrapedTransaction :=
  { dealSumType := "0"
    voucherNumberRatzOutbound := "123456789"
    voucherNumberRatz := "987654321"
    moreInfo := none
    dealSumOutbound := 0
    currencyId := "ILS"
    dealSum := 100
    fullPurchaseDate := some "01/06/2020"
    fullPurchaseDateOutbound := none
    fullSupplierNameHeb := "shop"
    fullSupplierNameOutbound := ""
    paymentSum := 90
    paymentSumOutbound := 0 }

/-- Keepable domestic record whose deal sum is positive while its payment
sum is negative. -/
def c5bad : ScrapedTransaction :=
  { dealSumType := "0"
    voucherNumberRatzOutbound := "123456789"
    voucherNumberRatz := "987654321"
    moreInfo := none
    dealSumOutbound := 0
    currencyId := "ILS"
    dealSum := 1
    fullPurchaseDate := some "01/06/2020"
    fullPurchaseDateOutbound := none
    fullSupplierNameHeb := "shop"
    fullSupplierNameOutbound := ""
    paymentSum := -1
    paymentSumOutbound := 0 }

/-- Record whose memo holds the installment marker and the integers 3 and
12 in that order. -/
def c6txn : ScrapedTransaction :=
  { dealSumType := "0"
    voucherNumberRatzOutbound := "123456789"
    voucherNumberRatz := "987654321"
    moreInfo := some "תשלום 3 מתוך 12"
    dealSumOutbound := 0
    currencyId := "ILS"
    dealSum := 100
    fullPurchaseDate := some "01/06/2020"
    fullPurchaseDateOutbound := none
    fullSupplierNameHeb := "shop"
    fullSupplierNameOutbound := ""
    paymentSum := 100
    paymentSumOutbound := 0 }

/-- Start instant used by the concrete fetch scenarios. -/
def d0 : Dmy := (2019, 1, 1)

/-- Dashboard response whose header does not indicate success. -/
def c3dashboard : Option AccountsResponse :=
  some { Header := some { Status := "0" }, DashboardMonthBean := some { cardsCharges := some [] } }

/-- Transactions-list response whose header indicates success. -/
def c3txnList : Option TxnListResponse :=
  some { Header := some { Status := "1" }, CardsTransactionsListBean := some [] }

/-! ## C1: exclusion policy of the normalizer -/

/-- Selected raw deal sum of a record, following the direction
resolution of `convertOne`. -/
def rawDealSum (txn : ScrapedTransaction) : Int :=
  if txn.dealSumOutbound != 0 then txn.dealSumOutbound else txn.dealSum

/-- Selected raw payment sum of a record, following the direction
resolution of `convertOne`. -/
def rawPaymentSum (txn : ScrapedTransaction) : Int :=
  if txn.dealSumOutbound != 0 then txn.paymentSumOutbound else txn.paymentSum

/-- C1 (amended): `convertTransactions` decides each record on its own
fields, and drops a record exactly when its deal-sum type is the
placeholder code `"1"` or its domestic voucher number is the all-zeros
sentinel or its outbound voucher number is the all-zeros sentinel — a
single sentinel voucher field already drops the record. -/
theorem convertTransactions_drop_iff (p : Instant) (txn : ScrapedTransaction) :
    (convertTransactions [txn] p = [] ↔
      (txn.dealSumType = "1" ∨ txn.voucherNumberRatz = "000000000" ∨
        txn.voucherNumberRatzOutbound = "000000000")) ∧
    ∀ txns : List ScrapedTransaction,
      convertTransactions txns p = txns.flatMap (fun t => convertTransactions [t] p) := by
  constructor
  · by_cases h : keepTxn txn = true
    · have hfalse : ¬(txn.dealSumType = "1" ∨ txn.voucherNumberRatz = "000000000" ∨
          txn.voucherNumberRatzOutbound = "000000000") := by
        simp only [keepTxn, Bool.and_eq_true, bne_iff_ne] at h
        push_neg
        exact ⟨h.1.1, h.1.2, h.2⟩
      simp [convertTransactions, List.filter_cons, h, hfalse]
    · have htrue : txn.dealSumType = "1" ∨ txn.voucherNumberRatz = "000000000" ∨
          txn.voucherNumberRatzOutbound = "000000000" := by
        simp only [keepTxn, Bool.and_eq_true, bne_iff_ne] at h
        by_cases h1 : txn.dealSumType = "1"
        · exact Or.inl h1
        · by_cases h2 : txn.voucherNumberRatz = "000000000"
          · exact Or.inr (Or.inl h2)
          · refine Or.inr (Or.inr ?_)
            by_contra h3
            exact h ⟨⟨h1, h2⟩, h3⟩
      have hk : keepTxn txn = false := by
        cases hkk : keepTxn txn with
        | false => rfl
        | true => exact absurd hkk h
      simp [convertTransactions, List.filter_cons, hk, htrue]
  · intro txns
    induction txns with
    | nil => rfl
    | cons t ts ih =>
      cases hk : keepTxn t with
      | true => simp [convertTransactions, List.filter_cons, hk] at ih ⊢; exact ih
      | false => simp [convertTransactions, List.filter_cons, hk] at ih ⊢; exact ih

/-- C1 counterexample: a record whose domestic voucher field alone is the
sentinel — it is not a placeholder and does not have both voucher fields
sentinel, yet the normalizer drops it. -/
theorem convertTransactions_dropsSingleSentinel :
    convertTransactions [c1txn] none = [] ∧
    c1txn.dealSumType ≠ "1" ∧
    ¬(c1txn.voucherNumberRatz = "000000000" ∧
      c1txn.voucherNumberRatzOutbound = "000000000") := by
  refine ⟨rfl, by decide, by decide⟩

/-! ## C5: sign policy of the normalizer -/

/-- C5 (amended): every produced transaction comes from some input record
and carries the negations of that record's selected raw deal and payment
sums; hence `originalAmount` is nonpositive whenever the raw deal sum is
nonnegative, `chargedAmount` is nonpositive whenever the raw payment sum
is nonnegative, and the two amounts carry equal signs whenever the two
raw sums do. -/
theorem convertTransactions_signPolicy (txns : List ScrapedTransaction) (p : Instant)
    (t : Transaction) (ht : t ∈ convertTransactions txns p) :
    ∃ txn ∈ txns,
      t.originalAmount = -rawDealSum txn ∧
      t.chargedAmount = -rawPaymentSum txn ∧
      (0 ≤ rawDealSum txn → t.originalAmount ≤ 0) ∧
      (0 ≤ rawPaymentSum txn → t.chargedAmount ≤ 0) ∧
      (Int.sign (rawDealSum txn) = Int.sign (rawPaymentSum txn) →
        Int.sign t.originalAmount = Int.sign t.chargedAmount) := by
  unfold convertTransactions at ht
  obtain ⟨a, haf, rfl⟩ := List.mem_map.mp ht
  have ha : a ∈ txns := (List.mem_filter.mp haf).1
  have horig : (convertOne p a).originalAmount = -rawDealSum a := by
    by_cases h : a.dealSumOutbound != 0 <;> simp [convertOne, rawDealSum, h]
  have hcharged : (convertOne p a).chargedAmount = -rawPaymentSum a := by
    by_cases h : a.dealSumOutbound != 0 <;> simp [convertOne, rawPaymentSum, h]
  refine ⟨a, ha, horig, hcharged, ?_, ?_, ?_⟩
  · intro h0; rw [horig]; omega
  · intro h0; rw [hcharged]; omega
  · intro hs; rw [horig, hcharged, Int.sign_neg, Int.sign_neg, hs]

/-- C5 witness: the sign policy applied to a concrete kept record with
raw deal sum 100 and raw payment sum 90. -/
theorem convertTransactions_signPolicy_witness :
    ∃ txn ∈ [c5wtxn],
      (convertOne none c5wtxn).originalAmount = -rawDealSum txn ∧
      (convertOne none c5wtxn).chargedAmount = -rawPaymentSum txn ∧
      (0 ≤ rawDealSum txn → (convertOne none c5wtxn).originalAmount ≤ 0) ∧
      (0 ≤ rawPaymentSum txn → (convertOne none c5wtxn).chargedAmount ≤ 0) ∧
      (Int.sign (rawDealSum txn) = Int.sign (rawPaymentSum txn) →
        Int.sign (convertOne none c5wtxn).originalAmount =
          Int.sign (convertOne none c5wtxn).chargedAmount) :=
  convertTransactions_signPolicy [c5wtxn] none (convertOne none c5wtxn) (by decide)

/-- C5 counterexample: a kept record with positive raw deal sum and
negative raw payment sum; its two canonical amounts carry opposite signs
and `chargedAmount` is positive. -/
theorem convertTransactions_signMismatch :
    convertTransactions [c5bad] none = [convertOne none c5bad] ∧
    0 < rawDealSum c5bad ∧
    Int.sign (convertOne none c5bad).originalAmount ≠
      Int.sign (convertOne none c5bad).chargedAmount ∧
    ¬((convertOne none c5bad).chargedAmount ≤ 0) := by decide

/-! ## C6: installment extraction -/

/-- C6: when the memo is present, contains the installment marker and has
at least two digit runs, `getInstallmentsInfo` returns the decimal values
of the first two digit runs, in order of appearance, as
`{number, total}`; when the memo is absent, lacks the marker, or has
fewer than two digit runs, it returns no descriptor and the transaction
type is `Normal`. -/
theorem getInstallmentsInfo_firstTwoIntegers (txn : ScrapedTransaction) :
    (∀ m a b rest, txn.moreInfo = some m → strIncludes m INSTALLMENTS_KEYWORD = true →
      digitRuns m = a :: b :: rest →
      getInstallmentsInfo txn =
        some { number := (parseIntJs a).getD 0, total := (parseIntJs b).getD 0 }) ∧
    (txn.moreInfo = none →
      getInstallmentsInfo txn = none ∧ getTransactionType txn = TransactionTypes.Normal) ∧
    (∀ m, txn.moreInfo = some m → strIncludes m INSTALLMENTS_KEYWORD = false →
      getInstallmentsInfo txn = none ∧ getTransactionType txn = TransactionTypes.Normal) ∧
    (∀ m, txn.moreInfo = some m → (digitRuns m).length < 2 →
      getInstallmentsInfo txn = none ∧ getTransactionType txn = TransactionTypes.Normal) := by
  refine ⟨?_, ?_, ?_, ?_⟩
  · intro m a b rest hm hinc hruns
    simp [getInstallmentsInfo, hm, hinc, hruns]
  · intro hm
    have h : getInstallmentsInfo txn = none := by simp [getInstallmentsInfo, hm]
    exact ⟨h, by simp [getTransactionType, h]⟩
  · intro m hm hinc
    have h : getInstallmentsInfo txn = none := by simp [getInstallmentsInfo, hm, hinc]
    exact ⟨h, by simp [getTransactionType, h]⟩
  · intro m hm hlen
    have h : getInstallmentsInfo txn = none := by
      cases hinc : strIncludes m INSTALLMENTS_KEYWORD with
      | false => simp [getInstallmentsInfo, hm, hinc]
      | true =>
        cases hruns : digitRuns m with
        | nil => simp [getInstallmentsInfo, hm, hinc, hruns]
        | cons a tl =>
          cases tl with
          | nil => simp [getInstallmentsInfo, hm, hinc, hruns]
          | cons b rest => rw [hruns] at hlen; simp only [List.length_cons] at hlen; omega
    exact ⟨h, by simp [getTransactionType, h]⟩

/-- C6 witness: a memo holding the installment marker and the integers 3
and 12 in that order yields the descriptor with number 3 and total 12. -/
theorem getInstallmentsInfo_firstTwoIntegers_witness :
    getInstallmentsInfo c6txn = some { number := 3, total := 12 } :=
  (getInstallmentsInfo_firstTwoIntegers c6txn).1 "תשלום 3 מתוך 12" "3" "12" []
    rfl (by decide) (by decide)

/-! ## C3: degraded months and the null-account crash -/

/-- C3 (code evaluated at the failing input): when the dashboard header
does not indicate success the account resolver returns `null` (not an
empty list), and a month whose transactions-list response succeeds while
its account resolution failed makes `fetchTransactions` throw (the
embedded `TypeError`) instead of completing with zero transactions; only
when the transactions-list response also fails does the month degrade to
the empty result. -/
theorem fetchTransactions_nullAccountsCrash :
    fetchAccounts c3dashboard = none ∧
    fetchTransactions c3dashboard c3txnList false d0 =
      Except.error "TypeError: accounts is null" ∧
    fetchTransactions c3dashboard none false d0 = Except.ok [] :=
  ⟨rfl, rfl, rfl⟩

/-! ## C8: effective start instant of the fetch pipeline -/

/-- C8: the effective start computed by `fetchData` is the maximum of the
one-year lookback instant and the caller's start; it never lies before
the one-year lookback, an absent caller start defaults to the lookback,
a caller start after the lookback is used as given, and a caller start
before the lookback is capped to the lookback. -/
theorem fetchData_effectiveStart (now : Int) (sd : Option Int) :
    fetchDataStartMoment now sd = max (subtractOneYear now) (sd.getD (subtractOneYear now)) ∧
    subtractOneYear now ≤ fetchDataStartMoment now sd ∧
    (sd = none → fetchDataStartMoment now sd = subtractOneYear now) ∧
    (∀ s, sd = some s → subtractOneYear now ≤ s → fetchDataStartMoment now sd = s) ∧
    (∀ s, sd = some s → s ≤ subtractOneYear now →
      fetchDataStartMoment now sd = subtractOneYear now) := by
  refine ⟨rfl, le_max_left _ _, ?_, ?_, ?_⟩
  · intro h; subst h; simp [fetchDataStartMoment]
  · intro s h hs; subst h; simp [fetchDataStartMoment, Option.getD]; omega
  · intro s h hs; subst h; simp [fetchDataStartMoment, Option.getD]; omega

/-- C8 witness: with "now" at 24 and a caller start one year further
back than allowed, the effective start is capped to one year before
now. -/
theorem fetchData_effectiveStart_witness :
    fetchDataStartMoment 24 (some 0) = subtractOneYear 24 :=
  (fetchData_effectiveStart 24 (some 0)).2.2.2.2 0 rfl (by decide)

/-! ## C9: validation return code "4" -/

/-- C9: whenever the validation response is well-formed with a success
header and its return code is `"4"`, `login` returns the
change-password outcome and never issues the logon request, regardless
of the logon-stage response. -/
theorem login_returnCode4_changePassword (v : Option ValidateResponse)
    (l : Option LogonResponse) (bean : ValidateBean)
    (hv : validValidate v = some bean) (hc : bean.returnCode = "4") :
    (login v l).result =
      Except.ok { success := false, errorType := some ErrorTypes.ChangePassword } ∧
    (login v l).logonIssued = false := by
  obtain ⟨rc, un⟩ := bean
  simp only at hc
  subst hc
  unfold login
  rw [hv]
  exact ⟨rfl, rfl⟩

/-- Well-formed validation response carrying return code "4". -/
def c9validate : Option ValidateResponse :=
  some { Header := some { Status := "1" }
         ValidateIdDataBean := some { returnCode := "4", userName := "user" } }

/-- C9 witness: the return-code-4 outcome at a concrete validation
response, with a logon-stage response that would have meant success. -/
theorem login_returnCode4_changePassword_witness :
    (login c9validate (some { status := "1" })).result =
      Except.ok { success := false, errorType := some ErrorTypes.ChangePassword } ∧
    (login c9validate (some { status := "1" })).logonIssued = false :=
  login_returnCode4_changePassword c9validate (some { status := "1" })
    { returnCode := "4", userName := "user" } rfl rfl

/-! ## C2: the user-visible login outcome is always structured -/

/-- C2: for every pair of transport responses the user-visible login
outcome is structured — a malformed or absent validation response yields
the typed `UnknownError` outcome, a failed outcome always carries a typed
error kind, and a successful outcome carries none. -/
theorem login_alwaysStructuredOutcome (v : Option ValidateResponse)
    (l : Option LogonResponse) :
    (validValidate v = none →
      loginUserVisible v l = { success := false, errorType := some ErrorTypes.UnknownError }) ∧
    ((loginUserVisible v l).success = true → (loginUserVisible v l).errorType = none) ∧
    ((loginUserVisible v l).success = false →
      ∃ e, (loginUserVisible v l).errorType = some e) := by
  unfold loginUserVisible login
  cases hv : validValidate v with
  | none => simp
  | some bean =>
    by_cases h1 : bean.returnCode == "1"
    · simp only [h1, if_true]
      cases l with
      | none => simp
      | some lr =>
        by_cases hs1 : lr.status == "1"
        · simp [hs1]
        · by_cases hs3 : lr.status == "3" <;> simp [hs1, hs3]
    · by_cases h4 : bean.returnCode == "4" <;> simp [h1, h4]

/-- C2 witness: an absent validation response (transport failure) yields
the structured `UnknownError` outcome. -/
theorem login_alwaysStructuredOutcome_witness :
    loginUserVisible none none =
      { success := false, errorType := some ErrorTypes.UnknownError } :=
  (login_alwaysStructuredOutcome none none).1 rfl

/-! ## C10: the aggregator's success flag -/

/-- Month input reproducing the null-account crash inside the
aggregator. -/
def c10month : MonthInput := { dashboard := c3dashboard, txnList := c3txnList }

/-- C10 counterexample: at a month whose account resolution failed while
its transactions list succeeded, `fetchAllTransactions` produces no
result at all — the month's thrown `TypeError` rejects the whole
`Promise.all` — so it does not carry `success: true` for every input. -/
theorem fetchAllTransactions_canFail :
    fetchAllTransactions [c10month] false d0 = Except.error "TypeError: accounts is null" :=
  rfl

/-- C10 (amended): whenever `fetchAllTransactions` completes with a
result, that result carries `success: true`; the flag never reflects a
per-month or per-account fetch failure. -/
theorem fetchAllTransactions_successWhenCompletes (months : List MonthInput)
    (cI : Bool) (d : Dmy) (r : FetchResult)
    (h : fetchAllTransactions months cI d = Except.ok r) : r.success = true := by
  unfold fetchAllTransactions at h
  cases hp : promiseAll (fun m => fetchTransactions m.dashboard m.txnList cI d) months with
  | error e => rw [hp] at h; exact Except.noConfusion h
  | ok results => rw [hp] at h; cases h; rfl

/-- C10 witness: the success flag of the completed empty-window run. -/
theorem fetchAllTransactions_successWhenCompletes_witness :
    ({ success := true, accounts := [] } : FetchResult).success = true :=
  fetchAllTransactions_successWhenCompletes [] false d0
    { success := true, accounts := [] } rfl

/-! ## C4: the time-window filter at both granularities -/

/-- The time-window filter is idempotent. -/
theorem filterOld_idem (d : Dmy) (cI : Bool) (l : List Transaction) :
    filterOldTransactions (filterOldTransactions l d cI) d cI =
      filterOldTransactions l d cI := by
  unfold filterOldTransactions
  induction l with
  | nil => rfl
  | cons a t ih =>
    cases h : keepNewTxn d cI a with
    | true => simp [List.filter_cons, h, ih]
    | false => simp [List.filter_cons, h, ih]

/-- A transaction list that the time-window filter leaves unchanged. -/
def isFilteredL (d : Dmy) (cI : Bool) (l : List Transaction) : Prop :=
  filterOldTransactions l d cI = l

/-- Filtering produces a filtered list. -/
theorem isFilteredL_filter (d : Dmy) (cI : Bool) (l : List Transaction) :
    isFilteredL d cI (filterOldTransactions l d cI) :=
  filterOld_idem d cI l

/-- Filtered lists are closed under concatenation. -/
theorem isFilteredL_append (d : Dmy) (cI : Bool) {a b : List Transaction}
    (ha : isFilteredL d cI a) (hb : isFilteredL d cI b) : isFilteredL d cI (a ++ b) := by
  unfold isFilteredL filterOldTransactions at *
  rw [List.filter_append, ha, hb]

/-- Every account value of a month result carries a filtered list. -/
def monthFiltered (d : Dmy) (cI : Bool) (res : List (String × ScraperAccount)) : Prop :=
  ∀ p ∈ res, isFilteredL d cI p.2.txns

/-- Every account value of a merged ledger carries a filtered list. -/
def combFiltered (d : Dmy) (cI : Bool) (comb : List (String × List Transaction)) : Prop :=
  ∀ p ∈ comb, isFilteredL d cI p.2

/-- `objInsert` preserves filteredness when the inserted value is
filtered. -/
theorem objInsert_filtered (d : Dmy) (cI : Bool) {acc : List (String × ScraperAccount)}
    {k : String} {v : ScraperAccount} (hacc : monthFiltered d cI acc)
    (hv : isFilteredL d cI v.txns) : monthFiltered d cI (objInsert acc k v) := by
  intro p hp
  unfold objInsert at hp
  by_cases hany : acc.any (fun q => q.1 == k)
  · rw [if_pos hany] at hp
    obtain ⟨q, hq, hfq⟩ := List.mem_map.mp hp
    by_cases hqk : q.1 == k
    · rw [if_pos hqk] at hfq; rw [← hfq]; exact hv
    · rw [if_neg hqk] at hfq; rw [← hfq]; exact hacc q hq
  · rw [if_neg hany] at hp
    rcases List.mem_append.mp hp with h | h
    · exact hacc p h
    · rw [List.mem_singleton.mp h]; exact hv

/-- The per-account loop body stores only filtered lists. -/
theorem processAccount_filtered (bean : List (Nat × CardTxnsBean)) (cI : Bool) (d : Dmy)
    {acc : List (String × ScraperAccount)} (hacc : monthFiltered d cI acc)
    (account : AccountMonthInfo) :
    monthFiltered d cI (processAccount bean cI d acc account) := by
  unfold processAccount
  split
  · split
    · exact objInsert_filtered d cI hacc (isFilteredL_filter d cI _)
    · exact hacc
  · exact hacc

/-- The fold over resolved accounts preserves filteredness. -/
theorem foldl_processAccount_filtered (bean : List (Nat × CardTxnsBean)) (cI : Bool)
    (d : Dmy) (accs : List AccountMonthInfo) :
    ∀ acc, monthFiltered d cI acc →
      monthFiltered d cI (accs.foldl (processAccount bean cI d) acc) := by
  induction accs with
  | nil => intro acc h; exact h
  | cons a t ih => intro acc h; exact ih _ (processAccount_filtered bean cI d h a)

/-- Every successful month fetch yields only filtered lists. -/
theorem fetchTransactions_filtered (dres : Option AccountsResponse)
    (tres : Option TxnListResponse) (cI : Bool) (d : Dmy)
    (out : List (String × ScraperAccount))
    (h : fetchTransactions dres tres cI d = Except.ok out) : monthFiltered d cI out := by
  unfold fetchTransactions at h
  cases ht : txnListOk tres with
  | none =>
    rw [ht] at h
    cases h
    intro p hp
    simp at hp
  | some bean =>
    rw [ht] at h
    cases ha : fetchAccounts dres with
    | none => rw [ha] at h; exact Except.noConfusion h
    | some accs =>
      rw [ha] at h
      cases h
      exact foldl_processAccount_filtered bean cI d accs [] (fun p hp => by simp at hp)

/-- The inner merge step preserves filteredness. -/
theorem stepMerge_filtered (d : Dmy) (cI : Bool) {comb : List (String × List Transaction)}
    (hc : combFiltered d cI comb) {e : String × ScraperAccount}
    (he : isFilteredL d cI e.2.txns) : combFiltered d cI (stepMerge comb e) := by
  intro p hp
  unfold stepMerge at hp
  by_cases hany : comb.any (fun q => q.1 == e.1)
  · rw [if_pos hany] at hp
    obtain ⟨q, hq, hfq⟩ := List.mem_map.mp hp
    by_cases hqk : q.1 == e.1
    · rw [if_pos hqk] at hfq; rw [← hfq]; exact isFilteredL_append d cI (hc q hq) he
    · rw [if_neg hqk] at hfq; rw [← hfq]; exact hc q hq
  · rw [if_neg hany] at hp
    rcases List.mem_append.mp hp with h | h
    · exact hc p h
    · rw [List.mem_singleton.mp h]; exact he

/-- Merging a filtered month into a filtered ledger stays filtered. -/
theorem mergeMonth_filtered (d : Dmy) (cI : Bool) :
    ∀ (res : List (String × ScraperAccount)) (comb : List (String × List Transaction)),
      combFiltered d cI comb → monthFiltered d cI res →
      combFiltered d cI (mergeMonth comb res) := by
  intro res
  induction res with
  | nil => intro comb hc _; exact hc
  | cons e t ih =>
    intro comb hc hm
    exact ih _ (stepMerge_filtered d cI hc (hm e (List.mem_cons_self e t)))
      (fun p hp => hm p (List.mem_cons_of_mem e hp))

/-- Every element of a `Promise.all` result comes from one input's
successful fetch. -/
theorem promiseAll_mem {α β ε : Type} (f : α → Except ε β) :
    ∀ (xs : List α) (ys : List β), promiseAll f xs = Except.ok ys →
      ∀ y ∈ ys, ∃ x, f x = Except.ok y := by
  intro xs
  induction xs with
  | nil =>
    intro ys h y hy
    cases h
    simp at hy
  | cons a t ih =>
    intro ys h y hy
    unfold promiseAll at h
    cases hfa : f a with
    | error e => rw [hfa] at h; exact Except.noConfusion h
    | ok b =>
      rw [hfa] at h
      cases hpt : promiseAll f t with
      | error e => rw [hpt] at h; exact Except.noConfusion h
      | ok bs =>
        rw [hpt] at h
        cases h
        rcases List.mem_cons.mp hy with rfl | hmem
        · exact ⟨a, hfa⟩
        · exact ih bs hpt y hmem

/-- The month-order fold preserves filteredness. -/
theorem foldl_mergeMonth_filtered (d : Dmy) (cI : Bool) :
    ∀ (results : List (List (String × ScraperAccount)))
      (comb : List (String × List Transaction)),
      combFiltered d cI comb → (∀ res ∈ results, monthFiltered d cI res) →
      combFiltered d cI (results.foldl mergeMonth comb) := by
  intro results
  induction results with
  | nil => intro comb hc _; exact hc
  | cons r t ih =>
    intro comb hc hall
    exact ih _ (mergeMonth_filtered d cI r comb hc (hall r (List.mem_cons_self r t)))
      (fun res h => hall res (List.mem_cons_of_mem r h))

/-- Re-filtering a filtered ledger changes nothing. -/
theorem combFiltered_map_id (d : Dmy) (cI : Bool) :
    ∀ comb, combFiltered d cI comb →
      comb.map (fun p => (p.1, filterOldTransactions p.2 d cI)) = comb := by
  intro comb
  induction comb with
  | nil => intro _; rfl
  | cons p t ih =>
    intro h
    have hp := h p (List.mem_cons_self p t)
    unfold isFilteredL at hp
    simp only [List.map_cons, hp]
    rw [ih (fun q hq => h q (List.mem_cons_of_mem p hq))]

/-- C4: the aggregator's output coincides, on every input, with the
spec's two-granularity pipeline in which the time-window filter is
invoked once per account per month inside the monthly fetcher and once
more on each account's final merged ledger: the source applies the
filter inside `fetchTransactions`, and the additional final-ledger
invocation has no observable effect because every merged ledger is
already filtered. -/
theorem fetchAllTransactions_filterBothGranularities (months : List MonthInput)
    (cI : Bool) (d : Dmy) :
    fetchAllTransactionsTwoGranularities months cI d = fetchAllTransactions months cI d := by
  unfold fetchAllTransactions fetchAllTransactionsTwoGranularities
  cases hp : promiseAll (fun m => fetchTransactions m.dashboard m.txnList cI d) months with
  | error e => rfl
  | ok results =>
    have hall : ∀ res ∈ results, monthFiltered d cI res := by
      intro res hres
      obtain ⟨m, hm⟩ := promiseAll_mem _ months results hp res hres
      exact fetchTransactions_filtered m.dashboard m.txnList cI d res hm
    have hcomb : combFiltered d cI (results.foldl mergeMonth []) :=
      foldl_mergeMonth_filtered d cI results [] (fun p hp => by simp at hp) hall
    exact congrArg
      (fun l => Except.ok ({ success := true, accounts := l } : FetchResult))
      (combFiltered_map_id d cI _ hcomb)

/-! ## C7: merge order of the cross-month aggregator -/

/-- JS property read `combinedTxns[acct]` on the merged ledger. -/
def lookupTxns (comb : List (String × List Transaction)) (acct : String) :
    Option (List Transaction) :=
  (comb.find? (fun p => p.1 == acct)).map (fun p => p.2)

/-- All transactions a month result holds for one account number, in
entry order. -/
def monthTxnsAll (res : List (String × ScraperAccount)) (acct : String) : List Transaction :=
  ((res.filter (fun p => p.1 == acct)).map (fun p => p.2.txns)).flatten

/-- Unfolding of `lookupTxns` over a cons cell. -/
theorem lookupTxns_cons (k : String) (v : List Transaction)
    (t : List (String × List Transaction)) (acct : String) :
    lookupTxns ((k, v) :: t) acct = if k == acct then some v else lookupTxns t acct := by
  unfold lookupTxns
  cases h : k == acct <;> simp [List.find?_cons, h]

/-- Effect of the in-place append branch of `stepMerge` on a lookup. -/
theorem lookupTxns_mapAppend (ek : String) (ts : List Transaction) (acct : String) :
    ∀ comb : List (String × List Transaction),
      lookupTxns (comb.map (fun p => if p.1 == ek then (p.1, p.2 ++ ts) else p)) acct =
        if ek == acct then Option.map (fun t => t ++ ts) (lookupTxns comb acct)
        else lookupTxns comb acct := by
  intro comb
  induction comb with
  | nil => cases he : ek == acct <;> simp [lookupTxns, he]
  | cons q t ih =>
    obtain ⟨k, v⟩ := q
    simp only [List.map_cons]
    cases hk : k == ek with
    | true =>
      have hk2 : k = ek := eq_of_beq hk
      subst hk2
      simp only [hk, if_pos]
      cases ha : k == acct with
      | true => simp [lookupTxns_cons, ha]
      | false =>
        have ha2 : k ≠ acct := beq_eq_false_iff_ne.mp ha
        simp only [beq_iff_eq] at ih
        simp [lookupTxns_cons, ha, ha2, ih]
    | false =>
      have hne : k ≠ ek := beq_eq_false_iff_ne.mp hk
      simp only [hk, Bool.false_eq_true, if_neg, ite_false]
      cases ha : k == acct with
      | true =>
        have ha2 : k = acct := eq_of_beq ha
        have hea : (ek == acct) = false := by
          rw [beq_eq_false_iff_ne]
          intro hh
          exact hne (ha2 ▸ hh.symm)
        simp [lookupTxns_cons, ha, hea]
      | false =>
        simp only [beq_iff_eq] at ih
        cases heq : ek == acct with
        | true =>
          have heq2 : ek = acct := eq_of_beq heq
          subst heq2
          simp [lookupTxns_cons, ha, ih]
        | false =>
          have heq2 : ek ≠ acct := beq_eq_false_iff_ne.mp heq
          simp [lookupTxns_cons, ha, heq2, ih]

/-- Effect of the new-entry branch of `stepMerge` on a lookup. -/
theorem lookupTxns_appendNew (comb : List (String × List Transaction)) (ek : String)
    (ts : List Transaction) (acct : String) :
    lookupTxns (comb ++ [(ek, ts)]) acct =
      match lookupTxns comb acct with
      | some v => some v
      | none => if ek == acct then some ts else none := by
  unfold lookupTxns
  rw [List.find?_append]
  cases hf : comb.find? (fun p => p.1 == acct) with
  | some v => simp [Option.or]
  | none => cases he : ek == acct <;> simp [Option.or, List.find?_cons, he]

/-- Effect of one merge step on a lookup: the stored sequence for the
step's account gains the month's transactions at its end; other accounts
are untouched. -/
theorem lookupTxns_stepMerge (comb : List (String × List Transaction))
    (ek : String) (ev : ScraperAccount) (acct : String) :
    lookupTxns (stepMerge comb (ek, ev)) acct =
      if ek == acct then some ((lookupTxns comb acct).getD [] ++ ev.txns)
      else lookupTxns comb acct := by
  unfold stepMerge
  by_cases hany : comb.any (fun p => p.1 == ek)
  · rw [if_pos hany, lookupTxns_mapAppend]
    cases he : ek == acct with
    | false => rfl
    | true =>
      have he2 : ek = acct := eq_of_beq he
      have hsome : ∃ q, comb.find? (fun p => p.1 == acct) = some q := by
        rw [← Option.isSome_iff_exists, List.find?_isSome]
        obtain ⟨x, hx, hpx⟩ := List.any_eq_true.mp hany
        exact ⟨x, hx, by rw [← he2]; exact hpx⟩
      obtain ⟨q, hq⟩ := hsome
      simp [lookupTxns, hq]
  · rw [if_neg hany, lookupTxns_appendNew]
    cases he : ek == acct with
    | true =>
      have he2 : ek = acct := eq_of_beq he
      have hnone : comb.find? (fun p => p.1 == acct) = none := by
        rw [List.find?_eq_none]
        intro x hx
        have := List.any_eq_false.mp (by rw [← Bool.not_eq_true]; exact hany) x hx
        rw [← he2]
        exact this
      simp [lookupTxns, hnone]
    | false =>
      cases hf : lookupTxns comb acct with
      | some v => simp [hf]
      | none => simp [hf]

/-- Effect of merging one month on a lookup: the account's stored
sequence gains (in order) every transaction list the month holds for that
account, appended at the end. -/
theorem lookupTxns_mergeMonth (acct : String) :
    ∀ (res : List (String × ScraperAccount)) (comb : List (String × List Transaction)),
      lookupTxns (mergeMonth comb res) acct =
        match lookupTxns comb acct with
        | some t => some (t ++ monthTxnsAll res acct)
        | none =>
          if res.any (fun p => p.1 == acct) then some (monthTxnsAll res acct) else none := by
  intro res
  induction res with
  | nil =>
    intro comb
    cases h : lookupTxns comb acct <;> simp [mergeMonth, monthTxnsAll, h]
  | cons e t ih =>
    intro comb
    obtain ⟨ek, ev⟩ := e
    show lookupTxns (mergeMonth (stepMerge comb (ek, ev)) t) acct = _
    rw [ih, lookupTxns_stepMerge]
    cases he : ek == acct with
    | true =>
      have he2 : ek = acct := eq_of_beq he
      cases hl : lookupTxns comb acct with
      | some v => simp [monthTxnsAll, List.filter_cons, he, he2, hl, List.append_assoc]
      | none => simp [monthTxnsAll, List.filter_cons, he, he2, hl]
    | false =>
      have hne : ek ≠ acct := beq_eq_false_iff_ne.mp he
      cases hl : lookupTxns comb acct with
      | some v => simp [monthTxnsAll, List.filter_cons, he, hne, hl]
      | none =>
        cases hta : t.any (fun p => p.1 == acct) with
        | true => simp [monthTxnsAll, List.filter_cons, he, hne, hl, hta]
        | false => simp [monthTxnsAll, List.filter_cons, he, hne, hl, hta]

/-- Effect of the whole month-order fold on a lookup: an account's merged
ledger is the concatenation, in month order, of what each month holds for
it. -/
theorem lookupTxns_foldlMergeMonth (acct : String) :
    ∀ (results : List (List (String × ScraperAccount)))
      (comb : List (String × List Transaction)),
      lookupTxns (results.foldl mergeMonth comb) acct =
        match lookupTxns comb acct with
        | some t => some (t ++ (results.map (fun res => monthTxnsAll res acct)).flatten)
        | none =>
          if results.any (fun res => res.any (fun p => p.1 == acct)) then
            some ((results.map (fun res => monthTxnsAll res acct)).flatten)
          else none := by
  intro results
  induction results with
  | nil =>
    intro comb
    cases h : lookupTxns comb acct <;> simp [h]
  | cons r t ih =>
    intro comb
    show lookupTxns (t.foldl mergeMonth (mergeMonth comb r)) acct = _
    rw [ih, lookupTxns_mergeMonth]
    cases hl : lookupTxns comb acct with
    | some v => simp [List.append_assoc]
    | none =>
      by_cases hr : r.any (fun p => p.1 == acct)
      · simp [hr]
      · have hr2 : r.any (fun p => p.1 == acct) = false := by
          cases hra : r.any (fun p => p.1 == acct) with
          | false => rfl
          | true => exact absurd hra hr
        have hmr : monthTxnsAll r acct = [] := by
          unfold monthTxnsAll
          rw [List.filter_eq_nil_iff.mpr]
          · rfl
          · intro a ha
            intro hpa
            exact hr (List.any_eq_true.mpr ⟨a, ha, hpa⟩)
        by_cases ht2 : t.any (fun res => res.any (fun p => p.1 == acct)) <;>
          simp [hr2, ht2, hmr]

/-- C7: when every month fetch succeeds, the aggregator completes with
the merge of the per-month results taken in the precomputed month order
(the order of the input sequence, which `Promise.all` preserves
irrespective of completion order), and each account's merged ledger is
the concatenation, in that month order, of the month-local sequences the
months hold for it. -/
theorem fetchAllTransactions_monthOrderMerge (months : List MonthInput) (cI : Bool)
    (d : Dmy) (results : List (List (String × ScraperAccount)))
    (h : promiseAll (fun m => fetchTransactions m.dashboard m.txnList cI d) months =
      Except.ok results) (acct : String) :
    fetchAllTransactions months cI d =
      Except.ok { success := true, accounts := results.foldl mergeMonth [] } ∧
    lookupTxns (results.foldl mergeMonth []) acct =
      (if results.any (fun res => res.any (fun p => p.1 == acct)) then
        some ((results.map (fun res => monthTxnsAll res acct)).flatten)
      else none) := by
  constructor
  · unfold fetchAllTransactions
    rw [h]
  · rw [lookupTxns_foldlMergeMonth]
    rfl

/-- Card-charge entry for card "111" at index 5. -/
def c7charge : CardCharge :=
  { cardIndex := "5", cardNumber := "111", billingDate := "02/01/2020" }

/-- Successful dashboard response resolving card "111" at index 5. -/
def c7dash : Option AccountsResponse :=
  some { Header := some { Status := "1" }
         DashboardMonthBean := some { cardsCharges := some [c7charge] } }

/-- A keepable domestic raw record carrying the given deal sum. -/
def c7txn (k : Int) : ScrapedTransaction :=
  { dealSumType := "0"
    voucherNumberRatzOutbound := "123456789"
    voucherNumberRatz := "987654321"
    moreInfo := none
    dealSumOutbound := 0
    currencyId := "ILS"
    dealSum := k
    fullPurchaseDate := some "15/06/2020"
    fullPurchaseDateOutbound := none
    fullSupplierNameHeb := "shop"
    fullSupplierNameOutbound := ""
    paymentSum := k
    paymentSumOutbound := 0 }

/-- Transaction group holding one domestic record of the given deal
sum. -/
def c7group (k : Int) : TxnGroup :=
  { txnIsrael := some [c7txn k], txnAbroad := none }

/-- Per-card bean holding the group of the given deal sum. -/
def c7bean (k : Int) : CardTxnsBean :=
  { CurrentCardTransactions := some [c7group k] }

/-- Successful transactions-list response holding one record of the
given deal sum for index 5. -/
def c7list (k : Int) : Option TxnListResponse :=
  some { Header := some { Status := "1" }
         CardsTransactionsListBean := some [(5, c7bean k)] }

/-- Two consecutive months, the earlier one holding the deal-sum-10
record and the later one the deal-sum-20 record. -/
def c7months : List MonthInput :=
  [{ dashboard := c7dash, txnList := c7list 10 },
   { dashboard := c7dash, txnList := c7list 20 }]

/-- The per-month fetch results of `c7months`. -/
def c7results : List (List (String × ScraperAccount)) :=
  match promiseAll (fun m => fetchTransactions m.dashboard m.txnList false d0) c7months with
  | Except.ok r => r
  | Except.error _ => []

/-- C7 witness: on the two concrete months the aggregator completes with
the in-order merge, and account "111" holds the first month's
transaction followed by the second month's. -/
theorem fetchAllTransactions_monthOrderMerge_witness :
    (fetchAllTransactions c7months false d0 =
      Except.ok { success := true, accounts := c7results.foldl mergeMonth [] } ∧
    lookupTxns (c7results.foldl mergeMonth []) "111" =
      (if c7results.any (fun res => res.any (fun p => p.1 == "111")) then
        some ((c7results.map (fun res => monthTxnsAll res "111")).flatten)
      else none)) ∧
    lookupTxns (c7results.foldl mergeMonth []) "111" =
      some [convertOne (parseDmy "02/01/2020") (c7txn 10),
        convertOne (parseDmy "02/01/2020") (c7txn 20)] :=
  ⟨fetchAllTransactions_monthOrderMerge c7months false d0 c7results rfl "111", rfl⟩
